import Mathlib

/-!
Verification development for the task_station back-office API.

The definitions below are a shallow embedding of the membership / credential
core of the service layer (`EmpresaService`, `SuperadminService`,
`AuthService`, `MeService`).  The database is a record of lists of rows;
Prisma `findFirst` becomes `List.find?`, `findMany`/`count` become
`List.filter` / `List.countP`, `update` by unique id becomes `List.map`
guarded on the id, `create` appends a fresh row, and thrown HTTP exceptions
become an `Except Err` error result.  Raw secrets are natural numbers and the
one-way digests stored in rows live in separate wrapper types so that a row
can only ever hold a digest, never the raw value.
-/

set_option linter.unusedVariables false

namespace TaskStation

inductive Role
  | admin
  | workspace_admin
  | member
deriving DecidableEq, Repr

inductive ResourceType
  | company
  | workspace
deriving DecidableEq, Repr

inductive TokenType
  | password_reset
  | first_access
deriving DecidableEq, Repr

/-- The typed failure taxonomy used by the service layer. -/
inductive Err
  | BadRequest
  | NotFound
  | Conflict
  | Forbidden
deriving DecidableEq, Repr

/-- A SHA-256 digest; rows store values of this type, never the raw token. -/
structure Hash where
  digest : Nat
deriving DecidableEq, Repr

/-- `crypto.createHash('sha256').update(raw).digest('hex')`. -/
def sha256 (raw : Nat) : Hash := ⟨raw⟩

/-- A bcrypt digest of a password. -/
structure PwHash where
  digest : String
deriving DecidableEq, Repr

/-- `bcrypt.hash(password, 10)`. -/
def bcryptHash (password : String) : PwHash := ⟨password⟩

structure User where
  id : Nat
  name : String
  email : String
  passwordHash : PwHash
  isActive : Bool
  isSuperuser : Bool
  mustResetPassword : Bool
  deletedAt : Option Nat
deriving DecidableEq, Repr

structure Company where
  id : Nat
  legalName : String
  taxId : String
  createdById : Nat
  isActive : Bool
  deletedAt : Option Nat
deriving DecidableEq, Repr

structure Workspace where
  id : Nat
  name : String
  description : Option String
  companyId : Nat
  createdById : Nat
  isActive : Bool
  deletedAt : Option Nat
deriving DecidableEq, Repr

structure Membership where
  id : Nat
  userId : Nat
  resourceType : ResourceType
  resourceId : Nat
  role : Role
  createdAt : Nat
  deletedAt : Option Nat
deriving DecidableEq, Repr

structure Token where
  id : Nat
  userId : Nat
  tokenHash : Hash
  type : TokenType
  usedAt : Option Nat
  expiresAt : Nat
deriving DecidableEq, Repr

/-- The persistent store: one list per table, a fresh-id counter and the
current clock (`new Date()`). -/
structure Db where
  users : List User
  companies : List Company
  workspaces : List Workspace
  memberships : List Membership
  tokens : List Token
  nextId : Nat
  now : Nat
deriving DecidableEq, Repr

-- ── AuthService: credential provisioning ──────────────────────────────────────

/-- `FIRST_ACCESS_EXPIRES_DAYS` default 7, in milliseconds. -/
def firstAccessTtl : Nat := 7 * 24 * 60 * 60 * 1000

/-- `PASSWORD_RESET_EXPIRES_IN` default 3600 seconds, in milliseconds. -/
def passwordResetTtl : Nat := 3600 * 1000

/-- The `updateMany` that marks used every unconsumed token of one kind for
one user (`AuthService.generateFirstAccessToken` / `forgotPassword`). -/
def invalidateTokens (userId : Nat) (k : TokenType) (now : Nat)
    (ts : List Token) : List Token :=
  ts.map fun t =>
    if t.userId == userId && t.usedAt.isNone && t.type == k then
      { t with usedAt := some now }
    else t

/-- `AuthService.generateFirstAccessToken`: invalidates previous unused
`first_access` tokens of the user, then creates a new token row holding the
digest of `raw` and an expiry timestamp.  The two writes are two separate
statements in the source (no `$transaction`). -/
def generateFirstAccessToken (db : Db) (userId raw : Nat) : Nat × Db :=
  let ts := invalidateTokens userId .first_access db.now db.tokens
  let tok : Token :=
    ⟨db.nextId, userId, sha256 raw, .first_access, none, db.now + firstAccessTtl⟩
  (raw, { db with tokens := ts ++ [tok], nextId := db.nextId + 1 })

/-- `AuthService.forgotPassword`: silently succeeds for unknown / inactive
emails; otherwise invalidates previous unused `password_reset` tokens of the
user and creates a new `password_reset` token row. -/
def forgotPassword (db : Db) (email : String) (raw : Nat) : Db :=
  match db.users.find? (fun us =>
      us.email == email && us.deletedAt.isNone && us.isActive) with
  | none => db
  | some user =>
    let ts := invalidateTokens user.id .password_reset db.now db.tokens
    let tok : Token :=
      ⟨db.nextId, user.id, sha256 raw, .password_reset, none,
        db.now + passwordResetTtl⟩
    { db with tokens := ts ++ [tok], nextId := db.nextId + 1 }

structure ConfirmResetPasswordDto where
  newPassword : String
  confirmPassword : String
deriving DecidableEq, Repr

/-- `AuthService.confirmResetPassword`: looks the token up by digest and
rejects it when missing, already used or expired; the stored `type` column is
not inspected.  On success the password change and the used-mark happen in one
`$transaction`. -/
def confirmResetPassword (db : Db) (raw : Nat)
    (dto : ConfirmResetPasswordDto) : Except Err Db :=
  if dto.newPassword != dto.confirmPassword then .error .BadRequest else
  match db.tokens.find? (fun t => t.tokenHash == sha256 raw) with
  | none => .error .BadRequest
  | some record =>
    if !record.usedAt.isNone || decide (record.expiresAt < db.now) then
      .error .BadRequest
    else
      .ok { db with
        users := db.users.map fun us =>
          if us.id == record.userId then
            { us with passwordHash := bcryptHash dto.newPassword
                      mustResetPassword := false }
          else us
        tokens := db.tokens.map fun t =>
          if t.id == record.id then { t with usedAt := some db.now } else t }

structure ConsumeFirstAccessDto where
  name : String
  newPassword : String
  confirmPassword : String
deriving DecidableEq, Repr

/-- `AuthService.consumeFirstAccessToken`: like the reset confirmation but it
additionally rejects tokens whose stored `type` is not `first_access`, and it
also sets the display name.  (The JWT returned by the source is issued from
the updated user and is outside this state model.) -/
def consumeFirstAccessToken (db : Db) (raw : Nat)
    (dto : ConsumeFirstAccessDto) : Except Err Db :=
  if dto.newPassword != dto.confirmPassword then .error .BadRequest else
  match db.tokens.find? (fun t => t.tokenHash == sha256 raw) with
  | none => .error .BadRequest
  | some record =>
    if !(record.type == .first_access) || !record.usedAt.isNone
        || decide (record.expiresAt < db.now) then
      .error .BadRequest
    else
      .ok { db with
        users := db.users.map fun us =>
          if us.id == record.userId then
            { us with passwordHash := bcryptHash dto.newPassword
                      mustResetPassword := false
                      name := dto.name.trim }
          else us
        tokens := db.tokens.map fun t =>
          if t.id == record.id then { t with usedAt := some db.now } else t }

-- ── EmpresaService: membership queries and guards ─────────────────────────────

/-- The row predicate behind `EmpresaService.assertNotCompanyAdmin`: an active
company-scope `admin` membership of `userId` at `companyId`. -/
def isActiveCompanyAdmin (companyId userId : Nat) (m : Membership) : Bool :=
  m.userId == userId && m.resourceType == .company && m.resourceId == companyId
    && m.role == .admin && m.deletedAt.isNone

/-- An active company-scope membership (any role) of `userId` at `companyId`. -/
def isActiveCompanyMem (companyId userId : Nat) (m : Membership) : Bool :=
  m.userId == userId && m.resourceType == .company && m.resourceId == companyId
    && m.deletedAt.isNone

/-- An active workspace-scope membership of `userId` at `workspaceId`. -/
def isActiveWorkspaceMem (workspaceId userId : Nat) (m : Membership) : Bool :=
  m.userId == userId && m.resourceType == .workspace
    && m.resourceId == workspaceId && m.deletedAt.isNone

/-- The non-deleted workspaces of a company (`workspace.findMany` on
`companyId, deletedAt: null`). -/
def companyWorkspaceIds (db : Db) (companyId : Nat) : List Nat :=
  (db.workspaces.filter fun w =>
    w.companyId == companyId && w.deletedAt.isNone).map (·.id)

/-- The `OR` filter shared by `updateMember`, `removeMember`,
`promoteToWorkspaceAdmin` and `listMembers`: an active membership tied to the
company either directly or through one of the given workspaces. -/
def tiedToCompany (companyId : Nat) (workspaceIds : List Nat)
    (userId : Nat) (m : Membership) : Bool :=
  m.userId == userId && m.deletedAt.isNone
    && ((m.resourceType == .company && m.resourceId == companyId)
      || (m.resourceType == .workspace && workspaceIds.contains m.resourceId))

/-- `workspace.findFirst` on `id, companyId, deletedAt: null`. -/
def findCompanyWorkspace (db : Db) (companyId workspaceId : Nat) :
    Option Workspace :=
  db.workspaces.find? fun w =>
    w.id == workspaceId && w.companyId == companyId && w.deletedAt.isNone

-- ── EmpresaService: member mutations ──────────────────────────────────────────

structure UpdateMemberDto where
  isActive : Option Bool
deriving DecidableEq, Repr

/-- `EmpresaService.updateMember`. -/
def updateMember (db : Db) (companyId targetUserId : Nat)
    (dto : UpdateMemberDto) (performedById : Nat) : Except Err Db :=
  if targetUserId == performedById then .error .BadRequest else
  if (db.memberships.find? (isActiveCompanyAdmin companyId targetUserId)).isSome
    then .error .Forbidden else
  let wsIds := companyWorkspaceIds db companyId
  match db.memberships.find? (tiedToCompany companyId wsIds targetUserId) with
  | none => .error .NotFound
  | some _ =>
    .ok { db with users := db.users.map (fun us =>
      if us.id == targetUserId then
        { us with isActive := dto.isActive.getD us.isActive }
      else us) }

/-- `EmpresaService.removeMember`: soft-deletes every active membership of the
target tied to the company (company scope and all its workspaces). -/
def removeMember (db : Db) (companyId targetUserId performedById : Nat) :
    Except Err Db :=
  if targetUserId == performedById then .error .BadRequest else
  if (db.memberships.find? (isActiveCompanyAdmin companyId targetUserId)).isSome
    then .error .Forbidden else
  let wsIds := companyWorkspaceIds db companyId
  let hit := tiedToCompany companyId wsIds targetUserId
  if db.memberships.countP (fun m => hit m) == 0 then .error .NotFound
  else
    .ok { db with memberships := db.memberships.map (fun m =>
      if hit m then { m with deletedAt := some db.now } else m) }

-- ── EmpresaService: admin lifecycle ───────────────────────────────────────────

/-- `EmpresaService.promoteToAdmin`: requires an active company-scope
membership and no active company-scope admin row, then **creates** a new
`admin` membership row. -/
def promoteToAdmin (db : Db) (companyId userId : Nat) :
    Except Err (Membership × Db) :=
  match db.memberships.find? (isActiveCompanyMem companyId userId) with
  | none => .error .NotFound
  | some _ =>
    if (db.memberships.find? (isActiveCompanyAdmin companyId userId)).isSome
      then .error .Conflict
    else
      let m : Membership :=
        ⟨db.nextId, userId, .company, companyId, .admin, db.now, none⟩
      .ok (m, { db with memberships := db.memberships ++ [m],
                        nextId := db.nextId + 1 })

/-- The `membership.count` of `revokeAdmin`: active company-scope `admin`
rows of the company other than the targeted one. -/
def otherActiveCompanyAdmins (db : Db) (companyId excludeId : Nat) : Nat :=
  db.memberships.countP fun m =>
    m.resourceType == .company && m.resourceId == companyId
      && m.role == .admin && m.deletedAt.isNone && !(m.id == excludeId)

/-- `EmpresaService.revokeAdmin`: self-guard, then last-admin guard (count of
other active company-scope `admin` rows), then soft-delete. -/
def revokeAdmin (db : Db) (companyId targetUserId performedById : Nat) :
    Except Err Db :=
  if targetUserId == performedById then .error .BadRequest else
  match db.memberships.find? (isActiveCompanyAdmin companyId targetUserId) with
  | none => .error .NotFound
  | some adminMembership =>
    if otherActiveCompanyAdmins db companyId adminMembership.id == 0 then
      .error .BadRequest
    else
      .ok { db with memberships := db.memberships.map (fun m =>
        if m.id == adminMembership.id then { m with deletedAt := some db.now }
        else m) }

/-- `EmpresaService.promoteToWorkspaceAdmin`: guards, then either upgrades an
existing active membership row of the target workspace in place, or inserts a
fresh `workspace_admin` row (auto-creating an implicit company `member` row
when no direct company tie exists). -/
def promoteToWorkspaceAdmin (db : Db)
    (companyId workspaceId userId performedById : Nat) :
    Except Err (Membership × Db) :=
  if (db.memberships.find? (isActiveCompanyAdmin companyId userId)).isSome
    then .error .Forbidden else
  match findCompanyWorkspace db companyId workspaceId with
  | none => .error .NotFound
  | some _ =>
    let wsIds := companyWorkspaceIds db companyId
    match db.memberships.find? (tiedToCompany companyId wsIds userId) with
    | none => .error .NotFound
    | some _ =>
      match db.memberships.find? (isActiveWorkspaceMem workspaceId userId) with
      | some existing =>
        if existing.role == .workspace_admin then .error .Conflict
        else
          .ok ({ existing with role := .workspace_admin },
            { db with memberships := db.memberships.map (fun m =>
              if m.id == existing.id then { m with role := .workspace_admin }
              else m) })
      | none =>
        let db1 :=
          if (db.memberships.find? (isActiveCompanyMem companyId userId)).isSome
            then db
          else
            { db with
              memberships := db.memberships
                ++ [⟨db.nextId, userId, .company, companyId, .member,
                      db.now, none⟩]
              nextId := db.nextId + 1 }
        let m : Membership :=
          ⟨db1.nextId, userId, .workspace, workspaceId, .workspace_admin,
            db1.now, none⟩
        .ok (m, { db1 with memberships := db1.memberships ++ [m],
                           nextId := db1.nextId + 1 })

/-- `EmpresaService.revokeWorkspaceAdmin`: no self-guard in the source; only
the company-admin guard, the workspace lookup and the role lookup precede the
soft-delete. -/
def revokeWorkspaceAdmin (db : Db)
    (companyId workspaceId targetUserId performedById : Nat) : Except Err Db :=
  if (db.memberships.find? (isActiveCompanyAdmin companyId targetUserId)).isSome
    then .error .Forbidden else
  match findCompanyWorkspace db companyId workspaceId with
  | none => .error .NotFound
  | some _ =>
    match db.memberships.find? (fun m =>
        isActiveWorkspaceMem workspaceId targetUserId m
          && m.role == .workspace_admin) with
    | none => .error .NotFound
    | some membership =>
      .ok { db with memberships := db.memberships.map (fun m =>
        if m.id == membership.id then { m with deletedAt := some db.now }
        else m) }

-- ── SuperadminService.deactivateMembership ────────────────────────────────────

/-- `SuperadminService.deactivateMembership`: finds the targeted company-scope
membership row by id, then counts the **other active company-scope membership
rows of any role** (the `where` filter carries no `role` condition), failing
with `BadRequest` when that count is zero, else soft-deleting the row. -/
def deactivateMembership (db : Db) (companyId membershipId performedById : Nat) :
    Except Err Db :=
  match db.memberships.find? (fun m =>
      m.id == membershipId && m.resourceType == .company
        && m.resourceId == companyId && m.deletedAt.isNone) with
  | none => .error .NotFound
  | some _ =>
    let others := db.memberships.countP fun m =>
      m.resourceType == .company && m.resourceId == companyId
        && m.deletedAt.isNone && !(m.id == membershipId)
    if others == 0 then .error .BadRequest
    else
      .ok { db with memberships := db.memberships.map (fun m =>
        if m.id == membershipId then { m with deletedAt := some db.now }
        else m) }

-- ── EmpresaService.listMembers: consolidation (Passo 3) ───────────────────────

/-- `roleRank`: `admin: 3, workspace_admin: 2, member: 1`. -/
def roleRank : Role → Nat
  | .admin => 3
  | .workspace_admin => 2
  | .member => 1

structure ConsolidatedEntry where
  id : Nat
  role : Role
  createdAt : Nat
deriving DecidableEq, Repr

/-- One iteration of the consolidation loop of `listMembers` (Passo 3): on a
higher-ranked row the entry takes the new row's id and role but keeps the
previously stored `createdAt`; on a tied-or-lower row only an earlier
`createdAt` is taken over. -/
def consolidateStep (f : Nat → Option ConsolidatedEntry) (m : Membership) :
    Nat → Option ConsolidatedEntry :=
  match f m.userId with
  | none => fun k =>
      if k == m.userId then some ⟨m.id, m.role, m.createdAt⟩ else f k
  | some e =>
    if roleRank m.role > roleRank e.role then
      fun k => if k == m.userId then some ⟨m.id, m.role, e.createdAt⟩ else f k
    else if m.createdAt < e.createdAt then
      fun k => if k == m.userId then some ⟨e.id, e.role, m.createdAt⟩ else f k
    else f

/-- The `consolidatedMap` of `listMembers`, as a function from `userId`;
`memberSince` in the response is the `createdAt` of this entry. -/
def consolidate (ms : List Membership) : Nat → Option ConsolidatedEntry :=
  ms.foldl consolidateStep (fun _ => none)

/-- Passo 2 of `listMembers`: every active membership relating to the company
(company scope or any of its non-deleted workspaces), in table order. -/
def companyRelatedMemberships (db : Db) (companyId : Nat) : List Membership :=
  let wsIds := companyWorkspaceIds db companyId
  db.memberships.filter fun m =>
    m.deletedAt.isNone
      && ((m.resourceType == .company && m.resourceId == companyId)
        || (m.resourceType == .workspace && wsIds.contains m.resourceId))

/-- The consolidated per-user row of `EmpresaService.listMembers` (the parts
of the response that come from `consolidatedMap`). -/
def listMembersConsolidated (db : Db) (companyId : Nat) :
    Nat → Option ConsolidatedEntry :=
  consolidate (companyRelatedMemberships db companyId)

-- ── MeService.getMyCompanies ──────────────────────────────────────────────────

structure MyCompanyEntry where
  companyId : Nat
  legalName : String
  role : Role
deriving DecidableEq, Repr

/-- Insertion used by `sortBy`. -/
def insertSorted (le : α → α → Bool) (a : α) : List α → List α
  | [] => [a]
  | b :: bs => if le a b then a :: b :: bs else b :: insertSorted le a bs

/-- A comparator sort standing in for `Array.prototype.sort` / `orderBy`
(insertion sort; only the resulting permutation matters here). -/
def sortBy (le : α → α → Bool) : List α → List α
  | [] => []
  | a :: as => insertSorted le a (sortBy le as)

/-- Comparator of the final `.sort` of `getMyCompanies`: rank descending,
then legal name ascending. -/
def myCompaniesLe (a b : MyCompanyEntry) : Bool :=
  roleRank b.role < roleRank a.role
    || (roleRank b.role == roleRank a.role && a.legalName ≤ b.legalName)

/-- `MeService.getMyCompanies`: companies reached by direct company-scope
memberships or through workspace memberships; a company with no direct
membership is reported with the constant role `workspace_admin`. -/
def getMyCompanies (db : Db) (userId : Nat) : List MyCompanyEntry :=
  let companyMemberships := db.memberships.filter fun m =>
    m.userId == userId && m.resourceType == .company && m.deletedAt.isNone
  let workspaceMemberships := db.memberships.filter fun m =>
    m.userId == userId && m.resourceType == .workspace && m.deletedAt.isNone
  let workspaceIds := workspaceMemberships.map (·.resourceId)
  let workspaceCompanyIds :=
    ((db.workspaces.filter fun w =>
      workspaceIds.contains w.id && w.deletedAt.isNone).map (·.companyId))
  let allCompanyIds := (companyMemberships.map (·.resourceId)
    ++ workspaceCompanyIds).dedup
  if allCompanyIds.isEmpty then []
  else
    let companies := sortBy (fun a b => a.legalName ≤ b.legalName)
      (db.companies.filter fun c =>
        allCompanyIds.contains c.id && c.deletedAt.isNone && c.isActive)
    sortBy myCompaniesLe (companies.map fun c =>
      match companyMemberships.find? (fun m => m.resourceId == c.id) with
      | some direct => ⟨c.id, c.legalName, direct.role⟩
      | none => ⟨c.id, c.legalName, Role.workspace_admin⟩)

-- ── Workspace / company creation lifecycles ───────────────────────────────────

/-- `email.split('@')[0]`: the characters before the first `@`, the whole
string when there is none. -/
def localPart (email : String) : String :=
  ⟨email.data.takeWhile (fun ch => !(ch == '@'))⟩

structure CreateWorkspaceDto where
  name : String
  description : Option String
  adminName : String
  adminEmail : String
deriving DecidableEq, Repr

/-- `EmpresaService.createWorkspace`.  `placeholder` stands for the random
never-disclosed bcrypt hash, `raw` for the random first-access token.  In the
new-email branch the created user's name is always the email local-part; the
DTO's `adminName` is not consulted. -/
def createWorkspace (db : Db) (companyId : Nat) (dto : CreateWorkspaceDto)
    (createdById : Nat) (placeholder : PwHash) (raw : Nat) :
    Workspace × User × Db :=
  match db.users.find? (fun us =>
      us.email == dto.adminEmail && us.deletedAt.isNone) with
  | none =>
    let tempName := localPart dto.adminEmail
    let ws : Workspace :=
      ⟨db.nextId, dto.name, dto.description, companyId, createdById,
        true, none⟩
    let admin : User :=
      ⟨db.nextId + 1, tempName, dto.adminEmail, placeholder,
        true, false, true, none⟩
    let memCompany : Membership :=
      ⟨db.nextId + 2, admin.id, .company, companyId, .member, db.now, none⟩
    let memWs : Membership :=
      ⟨db.nextId + 3, admin.id, .workspace, ws.id, .workspace_admin,
        db.now, none⟩
    let db1 : Db :=
      { db with
        workspaces := db.workspaces ++ [ws]
        users := db.users ++ [admin]
        memberships := db.memberships ++ [memCompany, memWs]
        nextId := db.nextId + 4 }
    let (_, db2) := generateFirstAccessToken db1 admin.id raw
    (ws, admin, db2)
  | some existingUser =>
    let ws : Workspace :=
      ⟨db.nextId, dto.name, dto.description, companyId, createdById,
        true, none⟩
    let memWs : Membership :=
      ⟨db.nextId + 1, existingUser.id, .workspace, ws.id, .workspace_admin,
        db.now, none⟩
    (ws, existingUser,
      { db with
        workspaces := db.workspaces ++ [ws]
        memberships := db.memberships ++ [memWs]
        nextId := db.nextId + 2 })

structure CreateCompanyDto where
  legalName : String
  taxId : String
  adminName : Option String
  adminEmail : String
deriving DecidableEq, Repr

/-- `SuperadminService.createCompany` (repository variant): tax-id uniqueness
check, then either binds the existing user as company admin or creates the
admin user (name `adminName ?? local-part`) in the same transaction. -/
def createCompany (db : Db) (dto : CreateCompanyDto) (createdById : Nat)
    (placeholder : PwHash) (raw : Nat) : Except Err (Company × User × Db) :=
  if (db.companies.find? (fun c =>
      c.taxId == dto.taxId && c.deletedAt.isNone)).isSome then
    .error .Conflict
  else
    match db.users.find? (fun us =>
        us.email == dto.adminEmail && us.deletedAt.isNone) with
    | some existingUser =>
      let company : Company :=
        ⟨db.nextId, dto.legalName, dto.taxId, createdById, true, none⟩
      let mem : Membership :=
        ⟨db.nextId + 1, existingUser.id, .company, company.id, .admin,
          db.now, none⟩
      .ok (company, existingUser,
        { db with
          companies := db.companies ++ [company]
          memberships := db.memberships ++ [mem]
          nextId := db.nextId + 2 })
    | none =>
      let tempName := dto.adminName.getD (localPart dto.adminEmail)
      let company : Company :=
        ⟨db.nextId, dto.legalName, dto.taxId, createdById, true, none⟩
      let admin : User :=
        ⟨db.nextId + 1, tempName, dto.adminEmail, placeholder,
          true, false, true, none⟩
      let mem : Membership :=
        ⟨db.nextId + 2, admin.id, .company, company.id, .admin, db.now, none⟩
      let db1 : Db :=
        { db with
          companies := db.companies ++ [company]
          users := db.users ++ [admin]
          memberships := db.memberships ++ [mem]
          nextId := db.nextId + 3 }
      let (_, db2) := generateFirstAccessToken db1 admin.id raw
      .ok (company, admin, db2)

-- ── Write programs and transaction boundaries ─────────────────────────────────

/-- A primitive row write issued against the store. -/
inductive WriteOp
  | wCompany (c : Company)
  | wWorkspace (w : Workspace)
  | wUser (u : User)
  | wMembership (m : Membership)
  | wToken (t : Token)
  | wInvalidateTokens (userId : Nat) (k : TokenType) (now : Nat)
deriving DecidableEq, Repr

def applyWrite (db : Db) : WriteOp → Db
  | .wCompany c =>
    { db with companies := db.companies ++ [c], nextId := db.nextId + 1 }
  | .wWorkspace w =>
    { db with workspaces := db.workspaces ++ [w], nextId := db.nextId + 1 }
  | .wUser u =>
    { db with users := db.users ++ [u], nextId := db.nextId + 1 }
  | .wMembership m =>
    { db with memberships := db.memberships ++ [m], nextId := db.nextId + 1 }
  | .wToken t =>
    { db with tokens := db.tokens ++ [t], nextId := db.nextId + 1 }
  | .wInvalidateTokens userId k now =>
    { db with tokens := invalidateTokens userId k now db.tokens }

/-- One `$transaction` block: all of its writes commit together. -/
def runBlock (db : Db) (b : List WriteOp) : Db := b.foldl applyWrite db

/-- A mutation's write structure: the list of its transaction blocks, in
program order.  A failure can strike between blocks, never inside one. -/
def runBlocks (db : Db) (p : List (List WriteOp)) : Db := p.foldl runBlock db

/-- The state observable when the connection dies after the first `k` blocks
committed. -/
def runUpTo (db : Db) (p : List (List WriteOp)) (k : Nat) : Db :=
  runBlocks db (p.take k)

/-- A program is atomic when every failure leaves either the initial or the
final state — no intermediate state is observable. -/
def AtomicProgram (p : List (List WriteOp)) : Prop :=
  ∀ db k, runUpTo db p k = db ∨ runUpTo db p k = runBlocks db p

/-- The write structure of the `$transaction` of the new-email branch of
`createWorkspace`: workspace + admin user + two membership rows, one block. -/
def createWorkspaceNewTx (db : Db) (companyId : Nat) (dto : CreateWorkspaceDto)
    (createdById : Nat) (placeholder : PwHash) : List (List WriteOp) :=
  [[ .wWorkspace ⟨db.nextId, dto.name, dto.description, companyId,
        createdById, true, none⟩,
     .wUser ⟨db.nextId + 1, localPart dto.adminEmail, dto.adminEmail,
        placeholder, true, false, true, none⟩,
     .wMembership ⟨db.nextId + 2, db.nextId + 1, .company, companyId,
        .member, db.now, none⟩,
     .wMembership ⟨db.nextId + 3, db.nextId + 1, .workspace, db.nextId,
        .workspace_admin, db.now, none⟩ ]]

/-- The write structure of the `$transaction` of
`createCompanyWithNewAdmin`: company + admin user + admin membership. -/
def createCompanyNewTx (db : Db) (dto : CreateCompanyDto)
    (createdById : Nat) (placeholder : PwHash) : List (List WriteOp) :=
  [[ .wCompany ⟨db.nextId, dto.legalName, dto.taxId, createdById,
        true, none⟩,
     .wUser ⟨db.nextId + 1, dto.adminName.getD (localPart dto.adminEmail),
        dto.adminEmail, placeholder, true, false, true, none⟩,
     .wMembership ⟨db.nextId + 2, db.nextId + 1, .company, db.nextId,
        .admin, db.now, none⟩ ]]

/-- The write structure of `generateFirstAccessToken`: the invalidating
`updateMany` and the `create` are two separate top-level statements in the
source, hence two blocks. -/
def generateFirstAccessProgram (db : Db) (userId raw : Nat) :
    List (List WriteOp) :=
  [ [.wInvalidateTokens userId .first_access db.now],
    [.wToken ⟨db.nextId, userId, sha256 raw, .first_access, none,
      db.now + firstAccessTtl⟩] ]

-- ── Concrete states used by the counterexamples and witnesses ─────────────────

/-- User 1 holds a single active company-scope `member` row at company 7. -/
def dbMemberOnly : Db :=
  ⟨[], [], [], [⟨0, 1, .company, 7, .member, 0, none⟩], [], 10, 5⟩

/-- Company 7 has one active `admin` company membership (user 1) and one
active `member` company membership (user 2). -/
def dbAdminPlusMember : Db :=
  ⟨[], [], [],
    [⟨0, 1, .company, 7, .admin, 0, none⟩,
     ⟨1, 2, .company, 7, .member, 0, none⟩], [], 10, 5⟩

/-- One user whose sole token is an unused, unexpired `first_access` token. -/
def dbFirstAccessToken : Db :=
  ⟨[⟨1, "ana", "ana@acme.com", ⟨"ph"⟩, true, false, true, none⟩], [], [],
    [], [⟨0, 1, sha256 42, .first_access, none, 100⟩], 10, 50⟩

/-- Workspace 9 of company 7; user 1 is its workspace admin and holds no
company-scope membership. -/
def dbWorkspaceAdminSelf : Db :=
  ⟨[], [], [⟨9, "W", none, 7, 0, true, none⟩],
    [⟨0, 1, .workspace, 9, .workspace_admin, 0, none⟩], [], 10, 5⟩

/-- Company 7 with two active admins (users 1 and 2). -/
def dbTwoAdmins : Db :=
  ⟨[], [], [],
    [⟨0, 1, .company, 7, .admin, 0, none⟩,
     ⟨1, 2, .company, 7, .admin, 0, none⟩], [], 10, 5⟩

/-- User 4 relates to company 7 through a `member` company row created at
time 2 and a `workspace_admin` row (workspace 9) created at time 1. -/
def dbLateMemberEarlyAdmin : Db :=
  ⟨[], [], [⟨9, "W", none, 7, 0, true, none⟩],
    [⟨1, 4, .company, 7, .member, 2, none⟩,
     ⟨2, 4, .workspace, 9, .workspace_admin, 1, none⟩], [], 20, 5⟩

/-- The same rows as `dbLateMemberEarlyAdmin`, scanned in the other order. -/
def dbEarlyAdminLateMember : Db :=
  ⟨[], [], [⟨9, "W", none, 7, 0, true, none⟩],
    [⟨2, 4, .workspace, 9, .workspace_admin, 1, none⟩,
     ⟨1, 4, .company, 7, .member, 2, none⟩], [], 20, 5⟩

/-- Company 7 is active; user 1 reaches it only through a `member`-role
membership of workspace 9. -/
def dbWorkspaceOnlyMember : Db :=
  ⟨[], [⟨7, "Acme", "123", 0, true, none⟩], [⟨9, "W", none, 7, 0, true, none⟩],
    [⟨0, 1, .workspace, 9, .member, 0, none⟩], [], 10, 5⟩

/-- A store holding one unused `first_access` token of user `u`; probe state
for the non-atomicity of the token reissue program. -/
def tokenProbeDb (u : Nat) : Db :=
  ⟨[], [], [], [], [⟨0, u, ⟨0⟩, .first_access, none, 0⟩], 0, 0⟩

/-- An empty store. -/
def dbEmpty : Db := ⟨[], [], [], [], [], 0, 5⟩

/-- User 1 holds a `member` row at company 7 and a `member` row at its
workspace 9 — the upgrade-in-place scenario of workspace promotion. -/
def dbUpgrade : Db :=
  ⟨[], [], [⟨9, "W", none, 7, 0, true, none⟩],
    [⟨0, 1, .company, 7, .member, 0, none⟩,
     ⟨1, 1, .workspace, 9, .member, 0, none⟩], [], 10, 5⟩

/-- One user whose sole token is an unused, unexpired `password_reset`
token. -/
def dbResetToken : Db :=
  ⟨[⟨1, "ana", "ana@acme.com", ⟨"ph"⟩, true, false, true, none⟩], [], [],
    [], [⟨0, 1, sha256 43, .password_reset, none, 100⟩], 10, 50⟩

/-- The workspace-creation request used in the display-name counterexample:
an explicit admin name is supplied next to the admin email. -/
def dtoMaria : CreateWorkspaceDto :=
  ⟨"WS", none, "Maria Costa", "maria@acme.com"⟩

-- ── General theorems ──────────────────────────────────────────────────────────

theorem mem_insertSorted {le : α → α → Bool} {a x : α} {l : List α} :
    x ∈ insertSorted le a l ↔ x = a ∨ x ∈ l := by
  induction l with
  | nil => simp [insertSorted]
  | cons b bs ih =>
    by_cases h : le a b = true
    · simp [insertSorted, h]
    · simp only [insertSorted, h, if_neg, Bool.not_eq_true] at *
      simp [List.mem_cons, ih]
      tauto

theorem mem_sortBy {le : α → α → Bool} {x : α} {l : List α} :
    x ∈ sortBy le l ↔ x ∈ l := by
  induction l with
  | nil => simp [sortBy]
  | cons a as ih => simp [sortBy, mem_insertSorted, ih]

/-- Fidelity: running the whole two-block program reproduces the functional
`generateFirstAccessToken` state. -/
theorem generateFirstAccessProgram_run (db : Db) (userId raw : Nat) :
    runBlocks db (generateFirstAccessProgram db userId raw)
      = (generateFirstAccessToken db userId raw).2 := rfl

/-- A program consisting of one transaction block is atomic. -/
theorem atomic_singleton (b : List WriteOp) : AtomicProgram [b] := by
  intro db k
  cases k with
  | zero => left; rfl
  | succ n => right; simp [runUpTo, List.take_succ_cons]

/-- A mapped pass that preserves a predicate and fixes every row satisfying
it commutes away under `filter`. -/
theorem filter_map_eq_of {α : Type} (f : α → α) (p : α → Bool)
    (hp : ∀ x, p (f x) = p x) (hfix : ∀ x, p x = true → f x = x)
    (l : List α) : (l.map f).filter p = l.filter p := by
  induction l with
  | nil => rfl
  | cons a l ih =>
    rw [List.map_cons, List.filter_cons, List.filter_cons, hp a]
    by_cases h : p a = true
    · rw [if_pos h, if_pos h, hfix a h, ih]
    · rw [if_neg h, if_neg h, ih]

/-- Invalidating tokens of kind `k` leaves the rows of any other kind `k'`
untouched (each row keeps its type, and rows of type `k'` never match the
invalidation filter). -/
theorem invalidateTokens_filter_ne {u now : Nat} {k k' : TokenType}
    (h : k ≠ k') (ts : List Token) :
    (invalidateTokens u k now ts).filter (fun t => t.type == k')
      = ts.filter (fun t => t.type == k') := by
  refine filter_map_eq_of _ _ ?_ ?_ ts
  · intro x
    by_cases hc : (x.userId == u && x.usedAt.isNone && x.type == k) = true
    · simp [hc]
    · simp [hc]
  · intro x hx
    have hxk : x.type = k' := by simpa using hx
    have : (x.type == k) = false := by simp [hxk, Ne.symm h]
    simp [this]

/-- Looking a token up by digest after the invalidation pass returns the
(possibly invalidated image of the) unique row carrying that digest. -/
theorem find?_invalidateTokens_hash {ts : List Token} {t : Token}
    {u now : Nat} {k : TokenType}
    (hnodup : (ts.map (·.tokenHash)).Nodup) (hmem : t ∈ ts) :
    (invalidateTokens u k now ts).find? (fun x => x.tokenHash == t.tokenHash)
      = some (if t.userId == u && t.usedAt.isNone && t.type == k then
          { t with usedAt := some now } else t) := by
  induction ts with
  | nil => cases hmem
  | cons a as ih =>
    simp only [invalidateTokens, List.map_cons]
    rcases List.mem_cons.mp hmem with rfl | hmem'
    · apply List.find?_cons_of_pos
      by_cases hc : (t.userId == u && t.usedAt.isNone && t.type == k) = true
      · simp [hc]
      · simp [hc]
    · have hhash : a.tokenHash ≠ t.tokenHash := by
        have hnotin : a.tokenHash ∉ as.map (·.tokenHash) :=
          (List.nodup_cons.mp (by simpa using hnodup)).1
        intro hEq
        exact hnotin (hEq ▸ List.mem_map_of_mem (·.tokenHash) hmem')
      have hpred : ∀ b : Token, b.tokenHash = a.tokenHash →
          (b.tokenHash == t.tokenHash) = false := by
        intro b hb
        simp [hb, hhash]
      rw [List.find?_cons_of_neg]
      · exact ih (List.nodup_cons.mp (by simpa using hnodup)).2 hmem'
      · by_cases hc : (a.userId == u && a.usedAt.isNone && a.type == k) = true
        · simp only [if_pos hc]
          simp [hpred { a with usedAt := some now } rfl]
        · simp only [if_neg hc]
          simp [hpred a rfl]

-- ── Claim theorems ────────────────────────────────────────────────────────────

/-- **C1** (counterexample): in a state where user 1 holds one active
company-scope `member` row at company 7, `promoteToAdmin` succeeds and leaves
**two** active membership rows for the pair (user 1, company 7) — the old
`member` row (id 0) still active next to the freshly inserted `admin` row —
so company-admin promotion does not update the existing row in place and the
at-most-one-active-row property fails after a successful operation. -/
theorem promoteToAdmin_duplicates_active_pair :
    (promoteToAdmin dbMemberOnly 7 1).toOption.map
        (fun r => (r.2.memberships.countP (isActiveCompanyMem 7 1),
          r.2.memberships.countP (fun m => m.id == 0 && m.deletedAt.isNone)))
      = some (2, 1) := by decide

/-- **C2**: `deactivateMembership` is claimed to count the other active
company-scope **admin** memberships and fail with `BadRequest` when none
exist; the source counts company-scope memberships of any role.  In a state
where company 7 has exactly one active admin row (id 0) next to a plain
`member` row, deactivating the admin row succeeds and the company is left
with zero active admin memberships. -/
theorem deactivateMembership_leaves_zero_admins :
    (deactivateMembership dbAdminPlusMember 7 0 99).toOption.map
        (fun db' => db'.memberships.countP (fun m =>
          m.resourceType == .company && m.resourceId == 7
            && m.role == .admin && m.deletedAt.isNone))
      = some 0 := by decide

/-- **C3** (counterexample): the only stored token is a `first_access` token,
yet presenting it to the password-reset confirmation succeeds — the token is
marked used and the user's credential flags change — instead of failing with
`BadRequest`, because `confirmResetPassword` never inspects the stored kind. -/
theorem confirmResetPassword_accepts_first_access :
    dbFirstAccessToken.tokens.map (·.type) = [.first_access]
    ∧ (confirmResetPassword dbFirstAccessToken 42 ⟨"new", "new"⟩).toOption.map
        (fun db' => (db'.tokens.map (·.usedAt),
          db'.users.map (·.mustResetPassword)))
      = some ([some 50], [false]) := by decide

/-- **C4** (counterexample): user 1, a workspace admin of workspace 9 and not
a company admin, calls `revokeWorkspaceAdmin` on themself; the call succeeds
and soft-deletes their own membership row instead of failing `BadRequest`. -/
theorem revokeWorkspaceAdmin_self_succeeds :
    (revokeWorkspaceAdmin dbWorkspaceAdminSelf 7 9 1 1).toOption.map
        (fun db' => db'.memberships.map (·.deletedAt))
      = some [some 5] := by decide

/-- **C4** (amended): the actor-equals-target guard exists exactly on the
member-update, member-removal and company-admin-revocation paths — each fails
with `BadRequest` before any write when the target is the actor — while
workspace-admin revocation performs no actor/target comparison: when the
self-targeting actor is not a company admin and the workspace and the
`workspace_admin` row exist, the call goes through. -/
theorem selfGuard_covers_member_and_companyAdmin_paths
    (db : Db) (companyId u : Nat) (dto : UpdateMemberDto) :
    updateMember db companyId u dto u = .error .BadRequest
    ∧ removeMember db companyId u u = .error .BadRequest
    ∧ revokeAdmin db companyId u u = .error .BadRequest
    ∧ (∀ workspaceId,
        db.memberships.find? (isActiveCompanyAdmin companyId u) = none →
        (findCompanyWorkspace db companyId workspaceId).isSome →
        (db.memberships.find? (fun m =>
          isActiveWorkspaceMem workspaceId u m
            && m.role == .workspace_admin)).isSome →
        (revokeWorkspaceAdmin db companyId workspaceId u u).isOk = true) := by
  refine ⟨by simp [updateMember], by simp [removeMember], by simp [revokeAdmin],
    ?_⟩
  intro workspaceId hadm hws hrow
  rcases Option.isSome_iff_exists.mp hws with ⟨w, hw⟩
  rcases Option.isSome_iff_exists.mp hrow with ⟨row, hrow'⟩
  simp [revokeWorkspaceAdmin, hadm, hw, hrow', Except.isOk, Except.toBool]

/-- **C4** (witness for the amended theorem). -/
theorem selfGuard_covers_witness :
    updateMember dbWorkspaceAdminSelf 7 1 ⟨some false⟩ 1 = .error .BadRequest
    ∧ (revokeWorkspaceAdmin dbWorkspaceAdminSelf 7 9 1 1).isOk = true :=
  ⟨(selfGuard_covers_member_and_companyAdmin_paths dbWorkspaceAdminSelf 7 1
      ⟨some false⟩).1,
   (selfGuard_covers_member_and_companyAdmin_paths dbWorkspaceAdminSelf 7 1
      ⟨some false⟩).2.2.2 9 (by decide) (by decide) (by decide)⟩

/-- **C5**: `revokeAdmin` on a target holding an active company-scope admin
membership fails with `BadRequest` — and hence leaves every row untouched —
whenever no other active company-scope admin row exists, and soft-deletes
exactly the targeted row when another active admin exists (and the actor is
not the target). -/
theorem revokeAdmin_last_admin_guard (db : Db)
    (companyId targetUserId performedById : Nat) (m : Membership)
    (hfind : db.memberships.find? (isActiveCompanyAdmin companyId targetUserId)
      = some m) :
    (otherActiveCompanyAdmins db companyId m.id = 0 →
      revokeAdmin db companyId targetUserId performedById = .error .BadRequest)
    ∧ (0 < otherActiveCompanyAdmins db companyId m.id →
      targetUserId ≠ performedById →
      revokeAdmin db companyId targetUserId performedById
        = .ok { db with memberships := db.memberships.map (fun x =>
            if x.id == m.id then { x with deletedAt := some db.now }
            else x) }) := by
  constructor
  · intro h0
    by_cases hself : targetUserId = performedById
    · simp [revokeAdmin, hself]
    · simp [revokeAdmin, hself, hfind, h0]
  · intro hpos hne
    have hz : otherActiveCompanyAdmins db companyId m.id ≠ 0 :=
      Nat.pos_iff_ne_zero.mp hpos
    simp [revokeAdmin, hne, hfind, hz]

/-- **C5** (witness): with one admin plus one plain member the revocation of
the sole admin fails `BadRequest`; with two admins it soft-deletes the
targeted row. -/
theorem revokeAdmin_last_admin_guard_witness :
    revokeAdmin dbAdminPlusMember 7 1 99 = .error .BadRequest
    ∧ revokeAdmin dbTwoAdmins 7 1 99
      = .ok { dbTwoAdmins with
          memberships := dbTwoAdmins.memberships.map (fun x =>
            if x.id == 0 then { x with deletedAt := some 5 } else x) } :=
  ⟨(revokeAdmin_last_admin_guard dbAdminPlusMember 7 1 99
      ⟨0, 1, .company, 7, .admin, 0, none⟩ (by decide)).1 (by decide),
   (revokeAdmin_last_admin_guard dbTwoAdmins 7 1 99
      ⟨0, 1, .company, 7, .admin, 0, none⟩ (by decide)).2 (by decide)
      (by decide)⟩

/-- **C8**: the consolidation loop of `listMembers`, run over the rows of
company 7 in the two possible scan orders.  The rows are a `member` row
created at time 2 and a `workspace_admin` row created at time 1, so the
earliest `createdAt` is 1; scanned member-first the reported `memberSince`
is 2 (the higher-ranked row's earlier timestamp is dropped), scanned
admin-first it is 1 — the reported value is not the earliest `createdAt` and
depends on the scan order. -/
theorem listMembers_memberSince_order_dependent :
    (companyRelatedMemberships dbLateMemberEarlyAdmin 7).map (·.createdAt)
        = [2, 1]
    ∧ listMembersConsolidated dbLateMemberEarlyAdmin 7 4
        = some ⟨2, .workspace_admin, 2⟩
    ∧ listMembersConsolidated dbEarlyAdminLateMember 7 4
        = some ⟨2, .workspace_admin, 1⟩ := by decide

/-- **C9** (counterexample): the invalidate-then-create pair of
`generateFirstAccessToken` is two separate top-level statements; run against
a store holding one unused `first_access` token, the state after the first
statement (the token marked used, no replacement created) is neither the
initial nor the final state, so the mutation is not atomic. -/
theorem tokenReissue_not_atomic :
    ¬ AtomicProgram (generateFirstAccessProgram dbFirstAccessToken 1 42) := by
  intro h
  rcases h dbFirstAccessToken 1 with h1 | h1 <;> revert h1 <;> decide

/-- **C1** (amended): workspace-scope promotion upgrades an existing active
row in place — same membership id, role changed, no row inserted — while
company-admin promotion of a user holding an active company `member` row
inserts a fresh `admin` row and leaves the `member` row active, so the
number of active rows for that (user, company) pair grows from at least one
to at least two. -/
theorem promotion_upgrade_vs_insert (db : Db)
    (companyId workspaceId userId performedById : Nat)
    (existing m0 : Membership)
    (hadm : db.memberships.find? (isActiveCompanyAdmin companyId userId)
      = none)
    (hws : (findCompanyWorkspace db companyId workspaceId).isSome)
    (hex : db.memberships.find? (isActiveWorkspaceMem workspaceId userId)
      = some existing)
    (hrole : existing.role ≠ .workspace_admin)
    (hmem : db.memberships.find? (isActiveCompanyMem companyId userId)
      = some m0) :
    (promoteToWorkspaceAdmin db companyId workspaceId userId performedById
      = .ok ({ existing with role := .workspace_admin },
        { db with memberships := db.memberships.map (fun m =>
          if m.id == existing.id then { m with role := .workspace_admin }
          else m) }))
    ∧ (promoteToAdmin db companyId userId).toOption.map
        (fun r => r.2.memberships.countP (isActiveCompanyMem companyId userId))
      = some
        (db.memberships.countP (isActiveCompanyMem companyId userId) + 1)
    ∧ 1 ≤ db.memberships.countP (isActiveCompanyMem companyId userId) := by
  rcases Option.isSome_iff_exists.mp hws with ⟨w, hw⟩
  have hm0mem : m0 ∈ db.memberships := List.mem_of_find?_eq_some hmem
  have hm0p : isActiveCompanyMem companyId userId m0 = true :=
    List.find?_some hmem
  refine ⟨?_, ?_, ?_⟩
  · have htied : db.memberships.find?
        (tiedToCompany companyId (companyWorkspaceIds db companyId) userId)
        ≠ none := by
      intro hnone
      have := List.find?_eq_none.mp hnone m0 hm0mem
      apply this
      simp only [tiedToCompany, isActiveCompanyMem, Bool.and_eq_true,
        beq_iff_eq] at hm0p ⊢
      simp [hm0p]
    rcases Option.ne_none_iff_exists.mp htied with ⟨any, hany⟩
    have hrole' : (existing.role == Role.workspace_admin) = false := by
      simpa using hrole
    simp [promoteToWorkspaceAdmin, hadm, hw, ← hany, hex, hrole']
  · unfold promoteToAdmin
    rw [hmem, hadm]
    refine congrArg some ?_
    simp [List.countP_append, isActiveCompanyMem]
  · exact List.countP_pos_iff.mpr ⟨m0, hm0mem, hm0p⟩

/-- **C1** (witness for the amended theorem). -/
theorem promotion_upgrade_vs_insert_witness :
    (promoteToWorkspaceAdmin dbUpgrade 7 9 1 99
      = .ok ({ (⟨1, 1, .workspace, 9, .member, 0, none⟩ : Membership) with
            role := .workspace_admin },
        { dbUpgrade with memberships := dbUpgrade.memberships.map (fun m =>
          if m.id == (⟨1, 1, .workspace, 9, .member, 0, none⟩ :
              Membership).id then
            { m with role := .workspace_admin }
          else m) }))
    ∧ (promoteToAdmin dbUpgrade 7 1).toOption.map
        (fun r => r.2.memberships.countP (isActiveCompanyMem 7 1))
      = some (dbUpgrade.memberships.countP (isActiveCompanyMem 7 1) + 1)
    ∧ 1 ≤ dbUpgrade.memberships.countP (isActiveCompanyMem 7 1) :=
  promotion_upgrade_vs_insert dbUpgrade 7 9 1 99
    ⟨1, 1, .workspace, 9, .member, 0, none⟩
    ⟨0, 1, .company, 7, .member, 0, none⟩
    (by decide) (by decide) (by decide) (by decide) (by decide)

/-- **C3** (amended): first-access consumption rejects with `BadRequest` —
and hence mutates nothing — whenever the token found by digest has stored
kind `password_reset`; the password-reset confirmation checks only
existence, used-mark and expiry, never the stored kind, so it accepts any
unused unexpired token found by digest (in particular a `first_access`
one). -/
theorem token_kind_check_coverage (db : Db) (raw : Nat) (t : Token)
    (hfind : db.tokens.find? (fun x => x.tokenHash == sha256 raw) = some t) :
    (t.type = .password_reset →
      ∀ dto : ConsumeFirstAccessDto,
        consumeFirstAccessToken db raw dto = .error .BadRequest)
    ∧ (∀ dto : ConfirmResetPasswordDto,
        dto.newPassword = dto.confirmPassword →
        t.usedAt = none → ¬ t.expiresAt < db.now →
        (confirmResetPassword db raw dto).isOk = true) := by
  constructor
  · intro htype dto
    by_cases hp : dto.newPassword = dto.confirmPassword
    · simp [consumeFirstAccessToken, hp, hfind, htype]
    · simp [consumeFirstAccessToken, hp]
  · intro dto hp hused hexp
    simp [confirmResetPassword, hp, hfind, hused, hexp, Except.isOk,
      Except.toBool]

/-- **C3** (witness for the amended theorem). -/
theorem token_kind_check_coverage_witness :
    consumeFirstAccessToken dbResetToken 43 ⟨"n", "p", "p"⟩
        = .error .BadRequest
    ∧ (confirmResetPassword dbResetToken 43 ⟨"p", "p"⟩).isOk = true := by
  have h := token_kind_check_coverage dbResetToken 43
    ⟨0, 1, sha256 43, .password_reset, none, 100⟩ (by decide)
  exact ⟨h.1 rfl ⟨"n", "p", "p"⟩, h.2 ⟨"p", "p"⟩ rfl rfl (by decide)⟩

/-- **C7** (counterexample): a workspace-creation request carrying the
explicit admin name "Maria Costa" next to a fresh email still creates the
admin user under the email's local-part "maria" — the supplied name is
ignored, contradicting the claim that an explicit name wins. -/
theorem createWorkspace_ignores_supplied_adminName :
    dtoMaria.adminName = "Maria Costa"
    ∧ (createWorkspace dbEmpty 7 dtoMaria 99 ⟨"ph"⟩ 42).2.1.name
      = "maria" := by
  constructor
  · rfl
  · decide

/-- **C7** (amended): in the new-email branch, company creation names the
admin `adminName ?? localPart(email)` as claimed, but workspace creation
always uses `localPart(email)` regardless of the supplied admin name. -/
theorem admin_name_resolution (db : Db) (companyId createdById : Nat)
    (wdto : CreateWorkspaceDto) (cdto : CreateCompanyDto)
    (ph : PwHash) (raw : Nat)
    (hw : db.users.find? (fun us =>
      us.email == wdto.adminEmail && us.deletedAt.isNone) = none)
    (hc : db.users.find? (fun us =>
      us.email == cdto.adminEmail && us.deletedAt.isNone) = none)
    (htax : db.companies.find? (fun c =>
      c.taxId == cdto.taxId && c.deletedAt.isNone) = none) :
    (createWorkspace db companyId wdto createdById ph raw).2.1.name
        = localPart wdto.adminEmail
    ∧ (createCompany db cdto createdById ph raw).toOption.map
        (fun r => r.2.1.name)
      = some (cdto.adminName.getD (localPart cdto.adminEmail)) := by
  constructor
  · simp [createWorkspace, hw]
  · unfold createCompany
    rw [htax, hc]
    rfl

/-- **C7** (witness for the amended theorem). -/
theorem admin_name_resolution_witness :
    (createWorkspace dbEmpty 7 dtoMaria 99 ⟨"ph"⟩ 42).2.1.name
        = localPart dtoMaria.adminEmail
    ∧ (createCompany dbEmpty
          ⟨"Acme", "123", some "João Silva", "joao@acme.com"⟩
          99 ⟨"ph"⟩ 42).toOption.map (fun r => r.2.1.name)
      = some ((some "João Silva").getD (localPart "joao@acme.com")) :=
  admin_name_resolution dbEmpty 7 99 dtoMaria
    ⟨"Acme", "123", some "João Silva", "joao@acme.com"⟩ ⟨"ph"⟩ 42
    (by decide) (by decide) (by decide)

/-- **C9** (amended): the creation transactions (workspace + admin identity
+ membership binding, and company + admin identity + membership binding)
are single atomic blocks, but the token invalidate-then-create pair of
`generateFirstAccessToken` is not atomic: against a store holding an unused
`first_access` token of the user, the state after the first statement is
neither the initial nor the final one. -/
theorem creation_atomic_token_reissue_not (db0 : Db)
    (companyId createdById u now tokId raw : Nat)
    (wdto : CreateWorkspaceDto) (cdto : CreateCompanyDto) (ph : PwHash) :
    AtomicProgram (createWorkspaceNewTx db0 companyId wdto createdById ph)
    ∧ AtomicProgram (createCompanyNewTx db0 cdto createdById ph)
    ∧ ¬ AtomicProgram
        [ [.wInvalidateTokens u .first_access now],
          [.wToken ⟨tokId, u, sha256 raw, .first_access, none,
            now + firstAccessTtl⟩] ] := by
  refine ⟨atomic_singleton _, atomic_singleton _, ?_⟩
  intro h
  rcases h (tokenProbeDb u) 1 with h1 | h1 <;>
    simp [tokenProbeDb, runUpTo, runBlocks, runBlock, applyWrite,
      invalidateTokens, Db.mk.injEq] at h1

/-- **C9** (witness for the amended theorem). -/
theorem creation_atomic_token_reissue_not_witness :
    AtomicProgram (createWorkspaceNewTx dbEmpty 7 dtoMaria 99 ⟨"ph"⟩)
    ∧ AtomicProgram (createCompanyNewTx dbEmpty
        ⟨"Acme", "123", none, "joao@acme.com"⟩ 99 ⟨"ph"⟩)
    ∧ ¬ AtomicProgram
        [ [.wInvalidateTokens 1 .first_access 5],
          [.wToken ⟨3, 1, sha256 42, .first_access, none,
            5 + firstAccessTtl⟩] ] :=
  creation_atomic_token_reissue_not dbEmpty 7 99 1 5 3 42 dtoMaria
    ⟨"Acme", "123", none, "joao@acme.com"⟩ ⟨"ph"⟩

/-- **C6**: issuing a `first_access` token (i) leaves the `password_reset`
rows unchanged, (ii) persists a new row holding only the digest of the raw
token together with an expiry timestamp, (iii) makes every previously-unused
`first_access` token of that user fail consumption with `BadRequest`
afterwards, and (iv) symmetrically, a `password_reset` issuance leaves the
`first_access` rows unchanged.  The digest-uniqueness hypothesis mirrors the
UNIQUE index on `token_hash`. -/
theorem firstAccess_issue_contract (db : Db) (u raw : Nat)
    (hnodup : (db.tokens.map (·.tokenHash)).Nodup) :
    ((generateFirstAccessToken db u raw).2.tokens.filter
        (fun t => t.type == .password_reset)
      = db.tokens.filter (fun t => t.type == .password_reset))
    ∧ (∃ t ∈ (generateFirstAccessToken db u raw).2.tokens,
        t.tokenHash = sha256 raw ∧ t.type = .first_access ∧ t.usedAt = none
          ∧ t.expiresAt = db.now + firstAccessTtl)
    ∧ (∀ t ∈ db.tokens, t.userId = u → t.type = .first_access →
        t.usedAt = none → ∀ r, sha256 r = t.tokenHash →
        ∀ dto, consumeFirstAccessToken
            (generateFirstAccessToken db u raw).2 r dto
          = .error .BadRequest)
    ∧ (∀ email raw2,
        (forgotPassword db email raw2).tokens.filter
            (fun t => t.type == .first_access)
          = db.tokens.filter (fun t => t.type == .first_access)) := by
  refine ⟨?_, ?_, ?_, ?_⟩
  · show ((invalidateTokens u .first_access db.now db.tokens
        ++ [(⟨db.nextId, u, sha256 raw, .first_access, none,
              db.now + firstAccessTtl⟩ : Token)]).filter
        (fun t => t.type == .password_reset)) = _
    rw [List.filter_append,
      invalidateTokens_filter_ne (by simp : TokenType.first_access
        ≠ TokenType.password_reset)]
    simp
  · exact ⟨⟨db.nextId, u, sha256 raw, .first_access, none,
      db.now + firstAccessTtl⟩, by simp [generateFirstAccessToken],
      rfl, rfl, rfl, rfl⟩
  · intro t hmem hu htype hused r hr dto
    have hfind : (generateFirstAccessToken db u raw).2.tokens.find?
        (fun x => x.tokenHash == sha256 r)
        = some { t with usedAt := some db.now } := by
      show ((invalidateTokens u .first_access db.now db.tokens
          ++ [(⟨db.nextId, u, sha256 raw, .first_access, none,
                db.now + firstAccessTtl⟩ : Token)]).find?
          (fun x => x.tokenHash == sha256 r)) = _
      rw [List.find?_append, hr]
      rw [find?_invalidateTokens_hash hnodup hmem]
      have hc : (t.userId == u && t.usedAt.isNone
          && t.type == TokenType.first_access) = true := by
        simp [hu, htype, hused]
      rw [if_pos hc]
      rfl
    by_cases hp : dto.newPassword = dto.confirmPassword
    · simp [consumeFirstAccessToken, hp, hfind]
    · simp [consumeFirstAccessToken, hp]
  · intro email raw2
    unfold forgotPassword
    cases hu : db.users.find? (fun us =>
        us.email == email && us.deletedAt.isNone && us.isActive) with
    | none => rfl
    | some user =>
      show ((invalidateTokens user.id .password_reset db.now db.tokens
          ++ [(⟨db.nextId, user.id, sha256 raw2, .password_reset, none,
                db.now + passwordResetTtl⟩ : Token)]).filter
          (fun t => t.type == .first_access)) = _
      rw [List.filter_append,
        invalidateTokens_filter_ne (by simp : TokenType.password_reset
          ≠ TokenType.first_access)]
      simp

/-- **C6** (witness): in a store whose only token is the unused
`first_access` token of user 1, reissuing marks it used — consuming it
afterwards fails `BadRequest` — and the (empty) set of `password_reset`
rows is unchanged. -/
theorem firstAccess_issue_contract_witness :
    ((generateFirstAccessToken dbFirstAccessToken 1 77).2.tokens.filter
        (fun t => t.type == .password_reset)
      = dbFirstAccessToken.tokens.filter
        (fun t => t.type == .password_reset))
    ∧ consumeFirstAccessToken
        (generateFirstAccessToken dbFirstAccessToken 1 77).2 42
        ⟨"n", "p", "p"⟩
      = .error .BadRequest := by
  have h := firstAccess_issue_contract dbFirstAccessToken 1 77 (by decide)
  exact ⟨h.1, h.2.2.1 ⟨0, 1, sha256 42, .first_access, none, 100⟩
    (by decide) rfl rfl rfl 42 rfl ⟨"n", "p", "p"⟩⟩

/-- **C10**: in the `getMyCompanies` view, every reported company for which
the user holds no active company-scope membership row carries the constant
role `workspace_admin`, whatever the roles of the workspace memberships that
made the company reachable. -/
theorem getMyCompanies_workspaceOnly_reports_workspace_admin
    (db : Db) (userId c : Nat)
    (hno : ∀ m ∈ db.memberships, m.userId = userId →
      m.resourceType = .company → m.resourceId = c → m.deletedAt ≠ none)
    (e : MyCompanyEntry) (he : e ∈ getMyCompanies db userId)
    (hc : e.companyId = c) :
    e.role = .workspace_admin := by
  simp only [getMyCompanies] at he
  split at he
  · exact absurd he (List.not_mem_nil e)
  · rw [mem_sortBy] at he
    rcases List.mem_map.mp he with ⟨co, hco, heq⟩
    rcases hfind : (db.memberships.filter fun m =>
        m.userId == userId && m.resourceType == ResourceType.company
          && m.deletedAt.isNone).find? (fun m => m.resourceId == co.id)
      with _ | d
    · rw [hfind] at heq
      rw [← heq]
    · rw [hfind] at heq
      exfalso
      have hdmem := List.mem_of_find?_eq_some hfind
      have hdp := List.find?_some hfind
      rw [List.mem_filter] at hdmem
      have hflt := hdmem.2
      simp only [Bool.and_eq_true, beq_iff_eq, Option.isNone_iff_eq_none]
        at hflt hdp
      have hcid : co.id = c := by
        rw [← hc, ← heq]
      exact hno d hdmem.1 hflt.1.1 hflt.1.2 (hcid ▸ hdp ▸ rfl) hflt.2

/-- **C10** (witness): user 1 reaches company 7 only through a `member`-role
workspace membership, and the view still reports `workspace_admin`. -/
theorem getMyCompanies_workspaceOnly_witness :
    (⟨7, "Acme", .workspace_admin⟩ : MyCompanyEntry)
        ∈ getMyCompanies dbWorkspaceOnlyMember 1
    ∧ (⟨7, "Acme", .workspace_admin⟩ : MyCompanyEntry).role
        = .workspace_admin :=
  ⟨by decide,
   getMyCompanies_workspaceOnly_reports_workspace_admin
     dbWorkspaceOnlyMember 1 7 (by decide) _ (by decide) rfl⟩

end TaskStation
